import Mathlib

/-!
Shallow embedding of the polls application (src/polls/models.py and
src/polls/views.py).

Data model: two tables, Question and Choice, with integer primary keys.
The system-managed timestamp columns created_at / updated_at are omitted:
no claim concerns them.  Timestamps (pub_date, the current instant) are
modelled as integers; votes is an IntegerField, modelled as Int.

The crucial point of models.py is that the custom manager
QuestionManager.get_queryset filters pub_date <= timezone.now(), and it is
installed as Question.objects; therefore every handler lookup that goes
through Question.objects (index, detail, vote, results) only sees
published questions.

Handlers return a Response value; vote additionally returns the updated
store.  The redirect target reverse(polls:results, args=(question.id,)) is
modelled abstractly as the constructor redirectResults carrying the
question identifier, since url routing is an external concern.
-/

namespace Polls

/-- Question row: models.py class Question (question_text CharField,
pub_date DateTimeField), primary key id. -/
structure Question where
  id : Nat
  question_text : String
  pub_date : Int
deriving DecidableEq

/-- Choice row: models.py class Choice (question ForeignKey, choice_text
CharField, votes IntegerField(default=0)), primary key id. -/
structure Choice where
  id : Nat
  question_id : Nat
  choice_text : String
  votes : Int
deriving DecidableEq

/-- Creation of a Choice row: the votes column takes its declared default 0
(models.IntegerField(default=0)). -/
def Choice.create (id : Nat) (question_id : Nat) (choice_text : String) : Choice :=
  { id := id, question_id := question_id, choice_text := choice_text, votes := 0 }

/-- The relational store: the Question table and the Choice table. -/
structure Store where
  questions : List Question
  choices : List Choice
deriving DecidableEq

/-- Database well-formedness: primary keys are unique in each table. -/
def Store.WF (s : Store) : Prop :=
  (s.questions.map Question.id).Nodup ∧ (s.choices.map Choice.id).Nodup

instance (s : Store) : Decidable s.WF := by
  unfold Store.WF; infer_instance

/-- QuestionManager.get_queryset: filter(pub_date__lte=timezone.now()).
This manager is installed as Question.objects, so every Question lookup in
views.py goes through this filter. -/
def publishedQuestions (s : Store) (now : Int) : List Question :=
  s.questions.filter (fun q => q.pub_date ≤ now)

/-- Question.objects.get(pk=question_id): first row of the (filtered)
queryset matching the primary key; none models Question.DoesNotExist. -/
def questionGet (s : Store) (now : Int) (qid : Nat) : Option Question :=
  (publishedQuestions s now).find? (fun q => q.id == qid)

/-- question.question_choices: the reverse foreign-key relation, i.e. all
Choice rows whose question_id references the given Question. -/
def questionChoices (s : Store) (qid : Nat) : List Choice :=
  s.choices.filter (fun c => c.question_id == qid)

/-- question.question_choices.get(pk=cid): lookup of the selected Choice
scoped to the Question; none models Choice.DoesNotExist. -/
def choiceGet (s : Store) (qid : Nat) (cid : Nat) : Option Choice :=
  (questionChoices s qid).find? (fun c => c.id == cid)

/-- Choice.objects.get(pk=cid): unscoped lookup by primary key (as in the
test helper get_choice); used to observe a counter after a vote. -/
def storeChoice (s : Store) (cid : Nat) : Option Choice :=
  s.choices.find? (fun c => c.id == cid)

/-- selected_choice.save(): write the row back, replacing the row with the
same primary key. -/
def saveChoice (s : Store) (c : Choice) : Store :=
  { s with choices := s.choices.map (fun c0 => if c0.id = c.id then c else c0) }

/-- Insertion step for ORDER BY pub_date DESC. -/
def insertByPubDateDesc (q : Question) : List Question → List Question
  | [] => [q]
  | q1 :: rest =>
      if q1.pub_date ≤ q.pub_date then q :: q1 :: rest
      else q1 :: insertByPubDateDesc q rest

/-- order_by(-pub_date): sort descending by pub_date (insertion sort). -/
def orderByPubDateDesc : List Question → List Question
  | [] => []
  | q :: rest => insertByPubDateDesc q (orderByPubDateDesc rest)

/-- The HTTP responses views.py can produce: Http404, a rendered template
(index / detail / results), or HttpResponseRedirect to the results route. -/
inductive Response where
  | notFound (message : String)
  | renderIndex (questions : List Question)
  | renderDetail (question : Question) (error_message : Option String)
  | renderResults (question : Question)
  | redirectResults (question_id : Nat)
deriving DecidableEq

/-- HTTP status code of each response: Http404 is 404, render is 200,
HttpResponseRedirect is 302. -/
def Response.status : Response → Nat
  | .notFound _ => 404
  | .renderIndex _ => 200
  | .renderDetail _ _ => 200
  | .renderResults _ => 200
  | .redirectResults _ => 302

/-- The question list computed by index: Question.objects (the filtering
manager) ordered descending by pub_date. -/
def indexQuestions (s : Store) (now : Int) : List Question :=
  orderByPubDateDesc (publishedQuestions s now)

/-- views.index: render polls/index.html with
Question.objects.order_by(-pub_date). -/
def index (s : Store) (now : Int) : Response :=
  .renderIndex (indexQuestions s now)

/-- views.detail: Question.objects.prefetch_related(...).get(pk=question_id);
Http404 on Question.DoesNotExist, otherwise render polls/detail.html. -/
def detail (s : Store) (now : Int) (question_id : Nat) : Response :=
  match questionGet s now question_id with
  | none => .notFound "Question does not exist"
  | some question => .renderDetail question none

/-- views.vote: look up the Question (through the filtering manager), then
the selected Choice from request.POST; Http404 on Question.DoesNotExist;
on KeyError (absent field, modelled by none) or Choice.DoesNotExist
re-render polls/detail.html with the error message; otherwise increment
votes, save, and redirect to the results route. -/
def vote (s : Store) (now : Int) (question_id : Nat) (post_choice : Option Nat) :
    Store × Response :=
  match questionGet s now question_id with
  | none => (s, .notFound "Question does not exist")
  | some question =>
    match post_choice with
    | none => (s, .renderDetail question (some "You didn't select a choice."))
    | some cid =>
      match choiceGet s question.id cid with
      | none => (s, .renderDetail question (some "You didn't select a choice."))
      | some selected_choice =>
        (saveChoice s { selected_choice with votes := selected_choice.votes + 1 },
         .redirectResults question.id)

/-- views.results: same lookup as detail, rendering polls/results.html. -/
def results (s : Store) (now : Int) (question_id : Nat) : Response :=
  match questionGet s now question_id with
  | none => .notFound "Question does not exist"
  | some question => .renderResults question

/-- Fixture: one Question published in the past (pub_date -30, as in the
test create_question with days=-30) owning one Choice with zero votes. -/
def pastStore : Store :=
  { questions := [{ id := 1, question_text := "Past question.", pub_date := -30 }],
    choices := [{ id := 1, question_id := 1, choice_text := "Choice 1", votes := 0 }] }

/-- Fixture: one Question whose pub_date (30) is in the future relative to
current time 0, owning one Choice with zero votes. -/
def futureStore : Store :=
  { questions := [{ id := 1, question_text := "Future question.", pub_date := 30 }],
    choices := [{ id := 1, question_id := 1, choice_text := "Choice 1", votes := 0 }] }

/-! ### Helper lemmas about lookups, updates and the sort -/

theorem mem_publishedQuestions (s : Store) (now : Int) (q : Question) :
    q ∈ publishedQuestions s now ↔ q ∈ s.questions ∧ q.pub_date ≤ now := by
  simp [publishedQuestions, List.mem_filter]

theorem find_key_of_mem {α : Type} (key : α → Nat) (l : List α) (a : α)
    (hmem : a ∈ l) (hnd : (l.map key).Nodup) :
    l.find? (fun x => key x == key a) = some a := by
  induction l with
  | nil => cases hmem
  | cons b t ih =>
    rw [List.map_cons, List.nodup_cons] at hnd
    rcases List.mem_cons.mp hmem with h | h
    · subst h
      rw [List.find?_cons_of_pos]
      simp
    · have hne : key b ≠ key a := by
        intro he
        exact hnd.1 (he ▸ List.mem_map_of_mem key h)
      rw [List.find?_cons_of_neg]
      · exact ih h hnd.2
      · simp [hne]

theorem publishedQuestions_ids_nodup (s : Store) (now : Int)
    (hnd : (s.questions.map Question.id).Nodup) :
    ((publishedQuestions s now).map Question.id).Nodup :=
  hnd.sublist ((List.filter_sublist _).map Question.id)

theorem questionGet_eq_some (s : Store) (now : Int) (q : Question)
    (hwf : s.WF) (hq : q ∈ s.questions) (hpub : q.pub_date ≤ now) :
    questionGet s now q.id = some q := by
  have hmem : q ∈ publishedQuestions s now :=
    (mem_publishedQuestions s now q).mpr ⟨hq, hpub⟩
  exact find_key_of_mem Question.id _ q hmem (publishedQuestions_ids_nodup s now hwf.1)

theorem questionGet_eq_none_of_future (s : Store) (now : Int) (q : Question)
    (hwf : s.WF) (hq : q ∈ s.questions) (hfut : now < q.pub_date) :
    questionGet s now q.id = none := by
  rw [questionGet, List.find?_eq_none]
  intro x hx
  rcases (mem_publishedQuestions s now x).mp hx with ⟨hxmem, hxpub⟩
  simp only [beq_iff_eq]
  intro hid
  have hxq : x = q := List.inj_on_of_nodup_map hwf.1 hxmem hq hid
  subst hxq
  exact absurd hxpub (not_le.mpr hfut)

theorem questionGet_eq_none_of_absent (s : Store) (now : Int) (qid : Nat)
    (h : ∀ q ∈ s.questions, q.id ≠ qid) :
    questionGet s now qid = none := by
  rw [questionGet, List.find?_eq_none]
  intro x hx
  rcases (mem_publishedQuestions s now x).mp hx with ⟨hxmem, _⟩
  simpa using h x hxmem

theorem mem_questionChoices (s : Store) (qid : Nat) (c : Choice) :
    c ∈ questionChoices s qid ↔ c ∈ s.choices ∧ c.question_id = qid := by
  simp [questionChoices, List.mem_filter]

theorem choiceGet_eq_some (s : Store) (qid : Nat) (c : Choice)
    (hnd : (s.choices.map Choice.id).Nodup) (hc : c ∈ s.choices)
    (hcq : c.question_id = qid) :
    choiceGet s qid c.id = some c := by
  have hmem : c ∈ questionChoices s qid :=
    (mem_questionChoices s qid c).mpr ⟨hc, hcq⟩
  have hnd2 : ((questionChoices s qid).map Choice.id).Nodup :=
    hnd.sublist ((List.filter_sublist _).map Choice.id)
  exact find_key_of_mem Choice.id _ c hmem hnd2

theorem choiceGet_eq_none (s : Store) (qid : Nat) (cid : Nat)
    (h : ∀ c ∈ s.choices, ¬(c.question_id = qid ∧ c.id = cid)) :
    choiceGet s qid cid = none := by
  rw [choiceGet, List.find?_eq_none]
  intro x hx
  rcases (mem_questionChoices s qid x).mp hx with ⟨hxmem, hxq⟩
  simp only [beq_iff_eq]
  exact fun hid => h x hxmem ⟨hxq, hid⟩

theorem find_map_update_self (l : List Choice) (sel c2 : Choice)
    (hid : c2.id = sel.id) (hmem : sel ∈ l) :
    (l.map (fun c0 => if c0.id = sel.id then c2 else c0)).find?
      (fun x => x.id == sel.id) = some c2 := by
  induction l with
  | nil => cases hmem
  | cons b t ih =>
    rw [List.map_cons]
    by_cases hb : b.id = sel.id
    · rw [if_pos hb, List.find?_cons_of_pos]
      simp [hid]
    · rw [if_neg hb, List.find?_cons_of_neg]
      · exact ih (by rcases List.mem_cons.mp hmem with h | h
                     · exact absurd (congrArg Choice.id h.symm) hb
                     · exact h)
      · simp [hb]

theorem find_map_update_other (l : List Choice) (sel c2 : Choice)
    (hid : c2.id = sel.id) (cid : Nat) (hne : cid ≠ sel.id) :
    (l.map (fun c0 => if c0.id = sel.id then c2 else c0)).find?
      (fun x => x.id == cid) = l.find? (fun x => x.id == cid) := by
  induction l with
  | nil => rfl
  | cons b t ih =>
    rw [List.map_cons]
    by_cases hb : b.id = sel.id
    · rw [if_pos hb]
      have h2 : (b.id == cid) = false := by
        simp only [beq_eq_false_iff_ne]
        exact fun h => hne (h.symm.trans hb)
      have h1 : (c2.id == cid) = false := by
        simp only [beq_eq_false_iff_ne]
        exact fun h => Ne.symm hne (hid.symm.trans h)
      simp only [List.find?_cons, h1, h2]
      exact ih
    · rw [if_neg hb]
      cases hbc : (b.id == cid) with
      | true => simp only [List.find?_cons, hbc]
      | false =>
        simp only [List.find?_cons, hbc]
        exact ih

theorem mem_insertByPubDateDesc (q a : Question) (l : List Question) :
    a ∈ insertByPubDateDesc q l ↔ a = q ∨ a ∈ l := by
  induction l with
  | nil => simp [insertByPubDateDesc]
  | cons q1 rest ih =>
    rw [insertByPubDateDesc]
    split
    · simp
    · simp only [List.mem_cons, ih]
      tauto

theorem mem_orderByPubDateDesc (a : Question) (l : List Question) :
    a ∈ orderByPubDateDesc l ↔ a ∈ l := by
  induction l with
  | nil => simp [orderByPubDateDesc]
  | cons q rest ih =>
    rw [orderByPubDateDesc, mem_insertByPubDateDesc, ih]
    simp

theorem head_insertByPubDateDesc (q : Question) (l : List Question) :
    (insertByPubDateDesc q l).head? = some q ∨
    (insertByPubDateDesc q l).head? = l.head? := by
  cases l with
  | nil => simp [insertByPubDateDesc]
  | cons q1 rest =>
    rw [insertByPubDateDesc]
    split
    · left; rfl
    · right; rfl

theorem chain_insertByPubDateDesc (q : Question) (l : List Question)
    (h : List.Chain' (fun a b => b.pub_date ≤ a.pub_date) l) :
    List.Chain' (fun a b => b.pub_date ≤ a.pub_date) (insertByPubDateDesc q l) := by
  induction l with
  | nil => simp [insertByPubDateDesc]
  | cons q1 rest ih =>
    rw [insertByPubDateDesc]
    by_cases hle : q1.pub_date ≤ q.pub_date
    · rw [if_pos hle]
      exact List.chain'_cons.mpr ⟨hle, h⟩
    · rw [if_neg hle]
      rcases List.chain'_cons'.mp h with ⟨hhd, htail⟩
      refine List.chain'_cons'.mpr ⟨?_, ih htail⟩
      intro y hy
      rcases head_insertByPubDateDesc q rest with he | he
      · rw [he] at hy
        cases hy
        exact le_of_lt (not_le.mp hle)
      · rw [he] at hy
        exact hhd y hy

theorem chain_orderByPubDateDesc (l : List Question) :
    List.Chain' (fun a b => b.pub_date ≤ a.pub_date) (orderByPubDateDesc l) := by
  induction l with
  | nil => simp [orderByPubDateDesc]
  | cons q rest ih => exact chain_insertByPubDateDesc q _ ih

theorem vote_eq_of_question_none (s : Store) (now : Int) (qid : Nat) (pc : Option Nat)
    (hq : questionGet s now qid = none) :
    vote s now qid pc = (s, Response.notFound "Question does not exist") := by
  unfold vote
  simp only [hq]

theorem vote_eq_of_choice_absent (s : Store) (now : Int) (qid : Nat) (q : Question)
    (hq : questionGet s now qid = some q) :
    vote s now qid none =
      (s, Response.renderDetail q (some "You didn't select a choice.")) := by
  unfold vote
  simp only [hq]

theorem vote_eq_of_choice_none (s : Store) (now : Int) (qid : Nat) (cid : Nat)
    (q : Question) (hq : questionGet s now qid = some q)
    (hc : choiceGet s q.id cid = none) :
    vote s now qid (some cid) =
      (s, Response.renderDetail q (some "You didn't select a choice.")) := by
  unfold vote
  simp only [hq, hc]

theorem vote_eq_of_choice_some (s : Store) (now : Int) (qid : Nat) (cid : Nat)
    (q : Question) (sel : Choice) (hq : questionGet s now qid = some q)
    (hc : choiceGet s q.id cid = some sel) :
    vote s now qid (some cid) =
      (saveChoice s { sel with votes := sel.votes + 1 },
       Response.redirectResults q.id) := by
  unfold vote
  simp only [hq, hc]

theorem vote_choices_cases (s : Store) (now : Int) (qid : Nat) (pc : Option Nat) :
    (vote s now qid pc).1.choices = s.choices ∨
    ∃ sel ∈ s.choices,
      (vote s now qid pc).1.choices =
        s.choices.map
          (fun c0 => if c0.id = sel.id then { sel with votes := sel.votes + 1 } else c0) := by
  cases hq : questionGet s now qid with
  | none => rw [vote_eq_of_question_none s now qid pc hq]; exact Or.inl rfl
  | some q =>
    cases pc with
    | none => rw [vote_eq_of_choice_absent s now qid q hq]; exact Or.inl rfl
    | some cid =>
      cases hcg : choiceGet s q.id cid with
      | none => rw [vote_eq_of_choice_none s now qid cid q hq hcg]; exact Or.inl rfl
      | some sel =>
        have hmem : sel ∈ s.choices :=
          ((mem_questionChoices s q.id sel).mp (List.mem_of_find?_eq_some hcg)).1
        rw [vote_eq_of_choice_some s now qid cid q sel hq hcg]
        exact Or.inr ⟨sel, hmem, rfl⟩

/-! ### Claim theorems -/

/-- Claim C3: for every store state and current time, the published-question
query (QuestionManager.get_queryset) returns exactly the Questions whose
pub_date is at or before the current time, and the index listing it drives
contains exactly those Questions as well, so no future Question appears in
any listing driven by this query. -/
theorem publishedQuestions_exact (s : Store) (now : Int) (q : Question) :
    (q ∈ publishedQuestions s now ↔ q ∈ s.questions ∧ q.pub_date ≤ now) ∧
    (q ∈ indexQuestions s now ↔ q ∈ s.questions ∧ q.pub_date ≤ now) := by
  refine ⟨mem_publishedQuestions s now q, ?_⟩
  rw [indexQuestions, mem_orderByPubDateDesc]
  exact mem_publishedQuestions s now q

/-- Claim C4 counterexample: a Question with pub_date 30 is stored, yet at
current time 0 the index handler renders the empty listing — the future
Question is not returned, refuting the claim that the list endpoint shows
all Questions regardless of pub_date. -/
theorem index_unfiltered_cex :
    (⟨1, "Future question.", 30⟩ : Question) ∈ futureStore.questions ∧
    index futureStore 0 = Response.renderIndex [] ∧
    (⟨1, "Future question.", 30⟩ : Question) ∉ ([] : List Question) :=
  ⟨List.mem_singleton.mpr rfl, rfl, List.not_mem_nil _⟩

/-- Claim C4 (amended): the list handler returns exactly the stored
Questions whose pub_date is at or before the current time — future
Questions are excluded, because Question.objects is the publish-filtering
manager, which applies to the index query as well. -/
theorem index_lists_published (s : Store) (now : Int) :
    index s now = Response.renderIndex (indexQuestions s now) ∧
    ∀ q, q ∈ indexQuestions s now ↔ q ∈ s.questions ∧ q.pub_date ≤ now := by
  refine ⟨rfl, fun q => ?_⟩
  rw [indexQuestions, mem_orderByPubDateDesc]
  exact mem_publishedQuestions s now q

/-- Claim C7: the sequence of Questions returned by the list handler is
ordered descending by pub_date (each element of the rendered listing has a
pub_date at least that of its successor); in particular a store of three
Questions with pub_dates ordered oldest to newest, all published, is listed
newest first. -/
theorem index_ordered_desc :
    (∀ (s : Store) (now : Int),
      List.Chain' (fun a b => b.pub_date ≤ a.pub_date) (indexQuestions s now)) ∧
    (∀ (q1 q2 q3 : Question) (cs : List Choice) (now : Int),
      q1.pub_date < q2.pub_date → q2.pub_date < q3.pub_date → q3.pub_date ≤ now →
      indexQuestions { questions := [q1, q2, q3], choices := cs } now = [q3, q2, q1]) := by
  constructor
  · intro s now
    exact chain_orderByPubDateDesc _
  · intro q1 q2 q3 cs now h12 h23 h3
    have h2 : q2.pub_date ≤ now := le_of_lt (lt_of_lt_of_le h23 h3)
    have h1 : q1.pub_date ≤ now := le_of_lt (lt_of_lt_of_le h12 h2)
    have hp : publishedQuestions { questions := [q1, q2, q3], choices := cs } now =
        [q1, q2, q3] := by
      simp [publishedQuestions, List.filter_cons, h1, h2, h3]
    rw [indexQuestions, hp]
    simp [orderByPubDateDesc, insertByPubDateDesc,
      not_le.mpr h12, not_le.mpr h23, not_le.mpr (h12.trans h23)]

/-- Witness for the second part of C7: the three-question fixture with
pub_dates -12, -10, -7 at current time 0 is listed newest first. -/
theorem index_ordered_desc_witness :
    indexQuestions
      { questions := [⟨1, "Question 1", -12⟩, ⟨2, "Question 2", -10⟩,
                      ⟨3, "Question 3", -7⟩],
        choices := [] } 0 =
      [⟨3, "Question 3", -7⟩, ⟨2, "Question 2", -10⟩, ⟨1, "Question 1", -12⟩] :=
  index_ordered_desc.2 ⟨1, "Question 1", -12⟩ ⟨2, "Question 2", -10⟩
    ⟨3, "Question 3", -7⟩ [] 0 (by decide) (by decide) (by decide)

/-- Claim C1 counterexample: Question 1 is stored with pub_date 30 and owns
Choice 1, yet at current time 0 a vote for question 1 submitting choice 1
responds not-found — not a redirect — and leaves the store unchanged,
because the lookup goes through the publish-filtering manager. -/
theorem vote_increments_cex :
    (⟨1, "Future question.", 30⟩ : Question) ∈ futureStore.questions ∧
    (⟨1, 1, "Choice 1", 0⟩ : Choice) ∈ futureStore.choices ∧
    vote futureStore 0 1 (some 1) =
      (futureStore, Response.notFound "Question does not exist") ∧
    (vote futureStore 0 1 (some 1)).2 ≠ Response.redirectResults 1 :=
  ⟨List.mem_singleton.mpr rfl, List.mem_singleton.mpr rfl, rfl, by decide⟩

/-- Claim C1 (amended): for every stored Question q that is published
(pub_date at or before the current time) and every Choice c belonging to q,
a vote for the identifier of q submitting the identifier of c increments
the votes counter of c by exactly 1 in the persisted store, leaves every
other Choice unchanged, and responds with a redirect to the results route
for the identifier of q.  (The amendment adds the publishedness hypothesis,
which the counterexample shows to be necessary.) -/
theorem vote_increments_and_redirects (s : Store) (now : Int) (q : Question)
    (c : Choice) (hwf : s.WF) (hq : q ∈ s.questions) (hpub : q.pub_date ≤ now)
    (hc : c ∈ s.choices) (hcq : c.question_id = q.id) :
    (vote s now q.id (some c.id)).2 = Response.redirectResults q.id ∧
    storeChoice (vote s now q.id (some c.id)).1 c.id =
      some { c with votes := c.votes + 1 } ∧
    ∀ cid, cid ≠ c.id →
      storeChoice (vote s now q.id (some c.id)).1 cid = storeChoice s cid := by
  have hqg := questionGet_eq_some s now q hwf hq hpub
  have hcg := choiceGet_eq_some s q.id c hwf.2 hc hcq
  rw [vote_eq_of_choice_some s now q.id c.id q c hqg hcg]
  refine ⟨rfl, ?_, ?_⟩
  · exact find_map_update_self s.choices c _ rfl hc
  · intro cid hne
    exact find_map_update_other s.choices c { c with votes := c.votes + 1 } rfl cid hne

/-- Witness for C1 at the published-question fixture: voting for choice 1
of question 1 redirects to the results route and bumps its counter to 1. -/
theorem vote_increments_and_redirects_witness :
    (vote pastStore 0 1 (some 1)).2 = Response.redirectResults 1 ∧
    storeChoice (vote pastStore 0 1 (some 1)).1 1 =
      some ⟨1, 1, "Choice 1", 1⟩ ∧
    ∀ cid, cid ≠ 1 →
      storeChoice (vote pastStore 0 1 (some 1)).1 cid = storeChoice pastStore cid :=
  vote_increments_and_redirects pastStore 0 ⟨1, "Past question.", -30⟩
    ⟨1, 1, "Choice 1", 0⟩ (by decide) (List.mem_singleton.mpr rfl) (by decide)
    (List.mem_singleton.mpr rfl) rfl

/-- Claim C2 counterexample: Question 1 is stored with pub_date 30; at
current time 0 a vote for question 1 with the choice field absent responds
not-found (status 404), not a re-rendered detail page, because the question
lookup itself fails through the publish-filtering manager. -/
theorem vote_error_rerenders_cex :
    (⟨1, "Future question.", 30⟩ : Question) ∈ futureStore.questions ∧
    vote futureStore 0 1 none =
      (futureStore, Response.notFound "Question does not exist") ∧
    (vote futureStore 0 1 none).2.status = 404 :=
  ⟨List.mem_singleton.mpr rfl, rfl, rfl⟩

/-- Claim C2 (amended): for every stored Question q that is published
(pub_date at or before the current time), a vote request for q whose
submission lacks the choice field, or whose submitted choice identifier
names no Choice belonging to q, re-renders the detail view for q with the
error message "You didn't select a choice.", has HTTP status 200, and
leaves the store — hence the votes counter of every Choice — unchanged.
(The amendment adds the publishedness hypothesis, which the counterexample
shows to be necessary.) -/
theorem vote_error_rerenders (s : Store) (now : Int) (q : Question)
    (pc : Option Nat) (hwf : s.WF) (hq : q ∈ s.questions) (hpub : q.pub_date ≤ now)
    (hbad : pc = none ∨ ∃ cid, pc = some cid ∧
      ∀ c ∈ s.choices, ¬(c.question_id = q.id ∧ c.id = cid)) :
    vote s now q.id pc =
      (s, Response.renderDetail q (some "You didn't select a choice.")) ∧
    (vote s now q.id pc).2.status = 200 := by
  have hqg := questionGet_eq_some s now q hwf hq hpub
  have h1 : vote s now q.id pc =
      (s, Response.renderDetail q (some "You didn't select a choice.")) := by
    rcases hbad with h | ⟨cid, hpc, hnone⟩
    · rw [h]
      exact vote_eq_of_choice_absent s now q.id q hqg
    · rw [hpc]
      exact vote_eq_of_choice_none s now q.id cid q hqg (choiceGet_eq_none s q.id cid hnone)
  rw [h1]
  exact ⟨rfl, rfl⟩

/-- Witness for C2 at the published-question fixture: a vote with the
choice field absent re-renders the detail page with the error message and
status 200, mutating nothing. -/
theorem vote_error_rerenders_witness :
    vote pastStore 0 1 none =
      (pastStore,
       Response.renderDetail ⟨1, "Past question.", -30⟩
         (some "You didn't select a choice.")) ∧
    (vote pastStore 0 1 none).2.status = 200 :=
  vote_error_rerenders pastStore 0 ⟨1, "Past question.", -30⟩ none (by decide)
    (List.mem_singleton.mpr rfl) (by decide) (Or.inl rfl)

/-- Claim C5 counterexample: Question 1 is stored with pub_date 30; at
current time 0 a detail request for identifier 1 responds not-found with
status 404 — the detail handler does enforce the publish-date filter,
because its lookup goes through Question.objects, the filtering manager. -/
theorem detail_future_renders_cex :
    (⟨1, "Future question.", 30⟩ : Question) ∈ futureStore.questions ∧
    detail futureStore 0 1 = Response.notFound "Question does not exist" ∧
    (detail futureStore 0 1).status = 404 :=
  ⟨List.mem_singleton.mpr rfl, rfl, rfl⟩

/-- Claim C5 (amended): for every stored Question q whose pub_date is in the
future relative to the current time, a detail request for the identifier of
q responds not-found: the detail handler fetches through the default
manager, which filters to published questions, so the publish-date filter
is enforced at the detail layer too. -/
theorem detail_future_not_found (s : Store) (now : Int) (q : Question)
    (hwf : s.WF) (hq : q ∈ s.questions) (hfut : now < q.pub_date) :
    detail s now q.id = Response.notFound "Question does not exist" ∧
    (detail s now q.id).status = 404 := by
  have hqg := questionGet_eq_none_of_future s now q hwf hq hfut
  have h1 : detail s now q.id = Response.notFound "Question does not exist" := by
    unfold detail
    simp only [hqg]
  exact ⟨h1, by rw [h1]; rfl⟩

/-- Witness for C5 at the future-question fixture. -/
theorem detail_future_not_found_witness :
    detail futureStore 0 1 = Response.notFound "Question does not exist" ∧
    (detail futureStore 0 1).status = 404 :=
  detail_future_not_found futureStore 0 ⟨1, "Future question.", 30⟩ (by decide)
    (List.mem_singleton.mpr rfl) (by decide)

/-- Claim C6: for every question identifier matching no stored Question,
the detail, vote, and results handlers each respond not-found with HTTP
status 404; the store is unchanged and no soft (success-status) message is
produced. -/
theorem unknown_question_not_found (s : Store) (now : Int) (qid : Nat)
    (pc : Option Nat) (h : ∀ q ∈ s.questions, q.id ≠ qid) :
    detail s now qid = Response.notFound "Question does not exist" ∧
    results s now qid = Response.notFound "Question does not exist" ∧
    vote s now qid pc = (s, Response.notFound "Question does not exist") ∧
    (detail s now qid).status = 404 ∧
    (results s now qid).status = 404 ∧
    ((vote s now qid pc).2).status = 404 := by
  have hqg := questionGet_eq_none_of_absent s now qid h
  have hd : detail s now qid = Response.notFound "Question does not exist" := by
    unfold detail
    simp only [hqg]
  have hr : results s now qid = Response.notFound "Question does not exist" := by
    unfold results
    simp only [hqg]
  have hv := vote_eq_of_question_none s now qid pc hqg
  exact ⟨hd, hr, hv, by rw [hd]; rfl, by rw [hr]; rfl, by rw [hv]; rfl⟩

/-- Witness for C6: identifier 1000 matches no Question of the fixture, and
all three handlers respond not-found with status 404. -/
theorem unknown_question_not_found_witness :
    detail pastStore 0 1000 = Response.notFound "Question does not exist" ∧
    results pastStore 0 1000 = Response.notFound "Question does not exist" ∧
    vote pastStore 0 1000 (some 1) =
      (pastStore, Response.notFound "Question does not exist") ∧
    (detail pastStore 0 1000).status = 404 ∧
    (results pastStore 0 1000).status = 404 ∧
    ((vote pastStore 0 1000 (some 1)).2).status = 404 :=
  unknown_question_not_found pastStore 0 1000 (some 1) (by decide)

/-- Claim C8: every vote call performs at most one counter increment.  The
question table is never mutated; either the store is returned unchanged and
the response is not a redirect (all failure branches), or there is a stored
Choice — the selected one, whose identifier was submitted — whose counter
is incremented by exactly 1 while every other identifier looks up
unchanged, and the response is the redirect to the results route. -/
theorem vote_at_most_one_increment (s : Store) (now : Int) (qid : Nat)
    (pc : Option Nat) (_hwf : s.WF) :
    (vote s now qid pc).1.questions = s.questions ∧
    (((vote s now qid pc).1 = s ∧
        ∀ i, (vote s now qid pc).2 ≠ Response.redirectResults i) ∨
      ∃ c ∈ s.choices, pc = some c.id ∧
        (vote s now qid pc).2 = Response.redirectResults qid ∧
        storeChoice (vote s now qid pc).1 c.id =
          some { c with votes := c.votes + 1 } ∧
        ∀ i, i ≠ c.id →
          storeChoice (vote s now qid pc).1 i = storeChoice s i) := by
  cases hq : questionGet s now qid with
  | none =>
    rw [vote_eq_of_question_none s now qid pc hq]
    exact ⟨rfl, Or.inl ⟨rfl, by intro i; simp⟩⟩
  | some q =>
    have hqid : q.id = qid := by
      have := List.find?_some hq
      simpa using this
    cases pc with
    | none =>
      rw [vote_eq_of_choice_absent s now qid q hq]
      exact ⟨rfl, Or.inl ⟨rfl, by intro i; simp⟩⟩
    | some cid =>
      cases hcg : choiceGet s q.id cid with
      | none =>
        rw [vote_eq_of_choice_none s now qid cid q hq hcg]
        exact ⟨rfl, Or.inl ⟨rfl, by intro i; simp⟩⟩
      | some sel =>
        have hselmem : sel ∈ questionChoices s q.id := List.mem_of_find?_eq_some hcg
        have hsel : sel ∈ s.choices ∧ sel.question_id = q.id :=
          (mem_questionChoices s q.id sel).mp hselmem
        have hselid : sel.id = cid := by
          have := List.find?_some hcg
          simpa using this
        rw [vote_eq_of_choice_some s now qid cid q sel hq hcg]
        refine ⟨rfl, Or.inr ⟨sel, hsel.1, by rw [hselid], by rw [hqid], ?_, ?_⟩⟩
        · exact find_map_update_self s.choices sel _ rfl hsel.1
        · intro i hne
          exact find_map_update_other s.choices sel
            { sel with votes := sel.votes + 1 } rfl i hne

/-- Witness for C8 at the published-question fixture with a valid vote. -/
theorem vote_at_most_one_increment_witness :
    (vote pastStore 0 1 (some 1)).1.questions = pastStore.questions ∧
    (((vote pastStore 0 1 (some 1)).1 = pastStore ∧
        ∀ i, (vote pastStore 0 1 (some 1)).2 ≠ Response.redirectResults i) ∨
      ∃ c ∈ pastStore.choices, some 1 = some c.id ∧
        (vote pastStore 0 1 (some 1)).2 = Response.redirectResults 1 ∧
        storeChoice (vote pastStore 0 1 (some 1)).1 c.id =
          some { c with votes := c.votes + 1 } ∧
        ∀ i, i ≠ c.id →
          storeChoice (vote pastStore 0 1 (some 1)).1 i = storeChoice pastStore i) :=
  vote_at_most_one_increment pastStore 0 1 (some 1) (by decide)

/-- Claim C9: a newly created Choice has votes equal to 0 (the declared
column default); for every Choice in the store after a vote call there is a
stored Choice with the same identifier and a votes counter no larger
(votes are monotonically non-decreasing under voting, the only normal-flow
mutation); and the invariant that every votes counter is non-negative is
preserved by every vote call. -/
theorem votes_nonneg_and_monotone :
    (∀ (i qi : Nat) (t : String), (Choice.create i qi t).votes = 0) ∧
    (∀ (s : Store) (now : Int) (qid : Nat) (pc : Option Nat) (c1 : Choice),
      c1 ∈ (vote s now qid pc).1.choices →
      ∃ c0 ∈ s.choices, c0.id = c1.id ∧ c0.votes ≤ c1.votes) ∧
    (∀ (s : Store) (now : Int) (qid : Nat) (pc : Option Nat),
      (∀ c ∈ s.choices, 0 ≤ c.votes) →
      ∀ c1 ∈ (vote s now qid pc).1.choices, 0 ≤ c1.votes) := by
  refine ⟨fun i qi t => rfl, ?_, ?_⟩
  · intro s now qid pc c1 hc1
    rcases vote_choices_cases s now qid pc with hsame | ⟨sel, hselmem, hmap⟩
    · rw [hsame] at hc1
      exact ⟨c1, hc1, rfl, le_refl _⟩
    · rw [hmap] at hc1
      rcases List.mem_map.mp hc1 with ⟨c0, hc0mem, hc0⟩
      by_cases hid : c0.id = sel.id
      · rw [if_pos hid] at hc0
        refine ⟨sel, hselmem, ?_, ?_⟩
        · rw [← hc0]
        · rw [← hc0]
          exact le_of_lt (lt_add_one sel.votes)
      · rw [if_neg hid] at hc0
        exact ⟨c0, hc0mem, by rw [hc0], by rw [hc0]⟩
  · intro s now qid pc hpos c1 hc1
    rcases vote_choices_cases s now qid pc with hsame | ⟨sel, hselmem, hmap⟩
    · rw [hsame] at hc1
      exact hpos c1 hc1
    · rw [hmap] at hc1
      rcases List.mem_map.mp hc1 with ⟨c0, hc0mem, hc0⟩
      by_cases hid : c0.id = sel.id
      · rw [if_pos hid] at hc0
        rw [← hc0]
        show (0 : Int) ≤ sel.votes + 1
        have := hpos sel hselmem
        omega
      · rw [if_neg hid] at hc0
        rw [← hc0]
        exact hpos c0 hc0mem

/-- Witness for C9: a fresh Choice has zero votes; after the fixture vote,
the updated Choice traces back to a stored Choice with the same identifier
and no larger counter, and non-negativity is preserved. -/
theorem votes_nonneg_and_monotone_witness :
    (Choice.create 5 1 "New choice").votes = 0 ∧
    (∃ c0 ∈ pastStore.choices,
      c0.id = (⟨1, 1, "Choice 1", 1⟩ : Choice).id ∧
      c0.votes ≤ (⟨1, 1, "Choice 1", 1⟩ : Choice).votes) ∧
    (0 : Int) ≤ (⟨1, 1, "Choice 1", 1⟩ : Choice).votes :=
  ⟨votes_nonneg_and_monotone.1 5 1 "New choice",
   votes_nonneg_and_monotone.2.1 pastStore 0 1 (some 1) ⟨1, 1, "Choice 1", 1⟩
     (by decide),
   votes_nonneg_and_monotone.2.2 pastStore 0 1 (some 1) (by decide)
     ⟨1, 1, "Choice 1", 1⟩ (by decide)⟩

/-- Claim C10: for every stored Question q whose pub_date is in the future
relative to the current time, the vote handler and the results handler both
respond not-found for the identifier of q (status 404), and the vote
request leaves the store unchanged: every question lookup in views.py goes
through Question.objects, the manager filtering to published questions. -/
theorem future_question_vote_results_not_found (s : Store) (now : Int)
    (q : Question) (pc : Option Nat) (hwf : s.WF) (hq : q ∈ s.questions)
    (hfut : now < q.pub_date) :
    vote s now q.id pc = (s, Response.notFound "Question does not exist") ∧
    results s now q.id = Response.notFound "Question does not exist" ∧
    ((vote s now q.id pc).2).status = 404 ∧
    (results s now q.id).status = 404 := by
  have hqg := questionGet_eq_none_of_future s now q hwf hq hfut
  have hv := vote_eq_of_question_none s now q.id pc hqg
  have hr : results s now q.id = Response.notFound "Question does not exist" := by
    unfold results
    simp only [hqg]
  exact ⟨hv, hr, by rw [hv]; rfl, by rw [hr]; rfl⟩

/-- Witness for C10 at the future-question fixture. -/
theorem future_question_vote_results_not_found_witness :
    vote futureStore 0 1 (some 1) =
      (futureStore, Response.notFound "Question does not exist") ∧
    results futureStore 0 1 = Response.notFound "Question does not exist" ∧
    ((vote futureStore 0 1 (some 1)).2).status = 404 ∧
    (results futureStore 0 1).status = 404 :=
  future_question_vote_results_not_found futureStore 0
    ⟨1, "Future question.", 30⟩ (some 1) (by decide)
    (List.mem_singleton.mpr rfl) (by decide)

end Polls
